import Mathlib

/-!
Shallow embedding of `src/src/range.rs` (the `TextRange` interval type of
`matklad/text_unit`) and proofs about its operations.

The offset scalar `TextSize` lives in `crate::TextSize`, outside the provided
sources; it is modelled from the spec (§3, §6).  Rust panics (the `assert!` in
the factory function and out-of-bounds string slicing) are modelled as `none`
of an `Option` result.
-/

namespace TextUnit

/-- `u32::MAX`, the raw value of the sentinel. -/
def u32max : Nat := 2 ^ 32 - 1

/-- Modelled from the spec: the external offset scalar `crate::TextSize`
(not under `src/`): a wrapper around an unsigned 32-bit integer, ordered by
its raw value, with a sentinel `INF` equal to the maximum representable
value `u32::MAX`.  We carry the raw value as a `Nat`; the 32-bit bound
appears as a side condition where a claim needs it. -/
structure TextSize where
  raw : Nat
deriving DecidableEq

/-- Modelled from the spec: the sentinel `TextSize::INF`, the maximum
representable `u32` value. -/
def TextSize.INF : TextSize := ⟨u32max⟩

/-- A `TextSize` whose raw value fits in 32 bits (every real `u32` does). -/
def TextSize.Valid (t : TextSize) : Prop := t.raw ≤ u32max

/-- `pub struct TextRange { start: TextSize, end: TextSize }`
(range.rs lines 30–35).  The `start ≤ end` invariant is not part of the
type; it is enforced by the construction paths. -/
structure TextRange where
  start : TextSize
  «end» : TextSize
deriving DecidableEq

/-- The factory `pub fn TextRange(start, end)` (range.rs lines 49–52):
`assert!(start <= end)` then builds the pair.  The panic on `start > end`
is modelled as `none`. -/
def TextRange.make (start «end» : TextSize) : Option TextRange :=
  if start.raw ≤ «end».raw then some ⟨start, «end»⟩ else none

/-- `TextRange::empty` (range.rs lines 57–62): a zero-length range at
`offset`.  It takes `self` by value and ignores it. -/
def TextRange.empty (_self : TextRange) (offset : TextSize) : TextRange :=
  ⟨offset, offset⟩

/-- `TextRange::is_empty` (range.rs lines 87–90): `start.raw == end.raw`. -/
def TextRange.is_empty (self : TextRange) : Bool :=
  self.start.raw == self.«end».raw

/-- `TextRange::len` (range.rs lines 75–81), exactly as written: the two-element
array `[TextSize(end.raw - start.raw), TextSize::INF]` indexed by
`((end.raw < u32::MAX) & !is_empty()) as usize`, so a `true` condition
selects index 1, `TextSize::INF`. -/
def TextRange.len (self : TextRange) : TextSize :=
  if (decide (self.«end».raw < u32max) && !self.is_empty) then TextSize.INF
  else ⟨self.«end».raw - self.start.raw⟩

/-- `TextRange::contains` (range.rs lines 98–100): `start <= offset && offset < end`. -/
def TextRange.contains (self : TextRange) (offset : TextSize) : Bool :=
  decide (self.start.raw ≤ offset.raw) && decide (offset.raw < self.«end».raw)

/-- `TextRange::contains_inclusive` (range.rs lines 105–108):
`start <= point && point <= end`. -/
def TextRange.contains_inclusive (self : TextRange) (offset : TextSize) : Bool :=
  decide (self.start.raw ≤ offset.raw) && decide (offset.raw ≤ self.«end».raw)

/-- `TextRange::contains_range` (range.rs lines 111–113). -/
def TextRange.contains_range (self other : TextRange) : Bool :=
  decide (self.start.raw ≤ other.start.raw) && decide (other.«end».raw ≤ self.«end».raw)

/-- `TextRange::intersection` (range.rs lines 117–124): `start = max`,
`end = min` (the `TextSize` order is by raw value); `None` when `end < start`,
otherwise the factory function is applied. -/
def TextRange.intersection (lhs rhs : TextRange) : Option TextRange :=
  let start : Nat := max lhs.start.raw rhs.start.raw
  let e : Nat := min lhs.«end».raw rhs.«end».raw
  if e < start then none
  else TextRange.make ⟨start⟩ ⟨e⟩

/-- `TextRange::covering` (range.rs lines 127–131): `start = min`,
`end = max`, built through the asserting factory function. -/
def TextRange.covering (lhs rhs : TextRange) : Option TextRange :=
  TextRange.make ⟨min lhs.start.raw rhs.start.raw⟩ ⟨max lhs.«end».raw rhs.«end».raw⟩

/-- `Index<TextRange> for str` (range.rs lines 134–143).  The buffer is a
list of characters (one byte each for the ASCII buffers used here); Rust's
panicking slice `&s[a..b]` (which needs `a ≤ b ≤ len`) and `&s[a..]`
(which needs `a ≤ len`) are modelled as `none` out of bounds. -/
def indexStr (s : List Char) (index : TextRange) : Option (List Char) :=
  let start : Nat := index.start.raw
  if index.«end» = TextSize.INF then
    if start ≤ s.length then some (s.drop start) else none
  else
    if start ≤ index.«end».raw ∧ index.«end».raw ≤ s.length then
      some ((s.take index.«end».raw).drop start)
    else none

/-- `std::ops::Bound`, as used by the `RangeBounds` impl. -/
inductive Bound (α : Type) where
  | Included : α → Bound α
  | Excluded : α → Bound α
  | Unbounded : Bound α
deriving DecidableEq

/-- `RangeBounds::start_bound` (range.rs lines 156–158): always inclusive
at `start`. -/
def TextRange.start_bound (self : TextRange) : Bound TextSize :=
  Bound.Included self.start

/-- `RangeBounds::end_bound` (range.rs lines 160–165): `Unbounded` when
`end` is the sentinel, otherwise exclusive at `end`. -/
def TextRange.end_bound (self : TextRange) : Bound TextSize :=
  if self.«end» = TextSize.INF then Bound.Unbounded
  else Bound.Excluded self.«end»

/-- Modelled from the spec: reconstructing an Interval from its generic
bounds pair (an inclusive start bound and an exclusive or unbounded end
bound); an unbounded end maps back to the sentinel `INF`.  The source only
provides the forward direction (`RangeBounds for TextRange`); the spec's
round-trip property (§8) needs this inverse. -/
def fromBounds : Bound TextSize → Bound TextSize → Option TextRange
  | Bound.Included s, Bound.Excluded e => TextRange.make s e
  | Bound.Included s, Bound.Unbounded => TextRange.make s TextSize.INF
  | _, _ => none

/-- `From<TextRange> for Range<T>` (range.rs lines 169–176), instantiated at
the native index scalar: `r.start().into()..r.end().into()`, field by field,
as a pair of naturals. -/
def TextRange.toRange (r : TextRange) : Nat × Nat :=
  (r.start.raw, r.«end».raw)

/-- Helper: the factory returns `some r` exactly when `start ≤ end`, and then
`r` is the literal pair. -/
theorem make_eq_some_iff (s e : TextSize) (r : TextRange) :
    TextRange.make s e = some r ↔ s.raw ≤ e.raw ∧ r = ⟨s, e⟩ := by
  constructor
  · intro h
    by_cases hle : s.raw ≤ e.raw
    · simp [TextRange.make, hle] at h
      exact ⟨hle, h.symm⟩
    · simp [TextRange.make, hle] at h
  · rintro ⟨hle, rfl⟩
    simp [TextRange.make, hle]

/-- Helper: closed form of `intersection`. -/
theorem intersection_eq (x y : TextRange) :
    TextRange.intersection x y =
      if min x.«end».raw y.«end».raw < max x.start.raw y.start.raw then none
      else some ⟨⟨max x.start.raw y.start.raw⟩, ⟨min x.«end».raw y.«end».raw⟩⟩ := by
  by_cases hlt : min x.«end».raw y.«end».raw < max x.start.raw y.start.raw
  · simp [TextRange.intersection, hlt]
  · simp [TextRange.intersection, hlt, TextRange.make, Nat.le_of_not_lt hlt]

/-- C1: `TextRange::len` as written does NOT satisfy the spec's contract.
Evaluating the code: the finite non-empty range `3..7` gets length
`INF = u32::MAX` instead of `7 − 3 = 4`, and the non-empty sentinel-ended
range `3..INF` gets length `u32::MAX − 3` instead of `INF`.  (The boolean
condition cast to a `usize` index selects array element 1 when true, the
opposite of the elements' own `// true` / `// false` labels.) -/
theorem len_bug_eval :
    TextRange.len ⟨⟨3⟩, ⟨7⟩⟩ = TextSize.INF ∧
    TextSize.INF ≠ (⟨4⟩ : TextSize) ∧
    TextRange.len ⟨⟨3⟩, TextSize.INF⟩ = ⟨u32max - 3⟩ ∧
    (⟨u32max - 3⟩ : TextSize) ≠ TextSize.INF := by
  exact ⟨by decide, by decide, by decide, by decide⟩

/-- C2: every construction path — the factory `make`, the empty-range
constructor, `intersection`, and `covering` — only ever returns an interval
with `start ≤ end` (panicking paths return `none` and are excluded). -/
theorem construction_invariant :
    (∀ s e r, TextRange.make s e = some r → r.start.raw ≤ r.«end».raw) ∧
    (∀ q o, (TextRange.empty q o).start.raw ≤ (TextRange.empty q o).«end».raw) ∧
    (∀ a b r, TextRange.intersection a b = some r → r.start.raw ≤ r.«end».raw) ∧
    (∀ a b r, TextRange.covering a b = some r → r.start.raw ≤ r.«end».raw) := by
  refine ⟨?_, ?_, ?_, ?_⟩
  · intro s e r h
    obtain ⟨hle, rfl⟩ := (make_eq_some_iff s e r).1 h
    exact hle
  · intro q o
    exact Nat.le_refl _
  · intro a b r h
    rw [intersection_eq] at h
    by_cases hlt : min a.«end».raw b.«end».raw < max a.start.raw b.start.raw
    · simp [hlt] at h
    · simp [hlt] at h
      subst h
      exact Nat.le_of_not_lt hlt
  · intro a b r h
    obtain ⟨hle, rfl⟩ := (make_eq_some_iff _ _ r).1 h
    exact hle

/-- Witness for C2 at concrete inputs. -/
theorem construction_invariant_witness :
    (⟨⟨0⟩, ⟨5⟩⟩ : TextRange).start.raw ≤ (⟨⟨0⟩, ⟨5⟩⟩ : TextRange).«end».raw :=
  construction_invariant.1 ⟨0⟩ ⟨5⟩ ⟨⟨0⟩, ⟨5⟩⟩ (by decide)

/-- C3: for valid inputs, `intersection` computes `start = max` of starts and
`end = min` of ends, returns `none` exactly when that `end < start`, and for
touching ranges returns `some` of the empty range at the touching point:
`intersection (make 0 5) (make 5 10) = some (emptyAt 5)` while
`intersection (make 0 4) (make 5 10) = none`. -/
theorem intersection_spec (a b : TextRange)
    (ha : a.start.raw ≤ a.«end».raw) (hb : b.start.raw ≤ b.«end».raw) :
    (TextRange.intersection a b = none ↔
      min a.«end».raw b.«end».raw < max a.start.raw b.start.raw) ∧
    (∀ r, TextRange.intersection a b = some r →
      r.start.raw = max a.start.raw b.start.raw ∧
      r.«end».raw = min a.«end».raw b.«end».raw) ∧
    TextRange.intersection ⟨⟨0⟩, ⟨5⟩⟩ ⟨⟨5⟩, ⟨10⟩⟩ = some (TextRange.empty a ⟨5⟩) ∧
    TextRange.intersection ⟨⟨0⟩, ⟨4⟩⟩ ⟨⟨5⟩, ⟨10⟩⟩ = none := by
  refine ⟨?_, ?_, ?_, by decide⟩
  · rw [intersection_eq]
    by_cases hlt : min a.«end».raw b.«end».raw < max a.start.raw b.start.raw
    · simp [hlt]
    · simp [hlt]
  · intro r h
    rw [intersection_eq] at h
    by_cases hlt : min a.«end».raw b.«end».raw < max a.start.raw b.start.raw
    · simp [hlt] at h
    · simp [hlt] at h
      subst h
      exact ⟨rfl, rfl⟩
  · show _ = some (⟨⟨5⟩, ⟨5⟩⟩ : TextRange)
    decide

/-- Witness for C3 at concrete inputs. -/
theorem intersection_spec_witness :
    TextRange.intersection ⟨⟨0⟩, ⟨5⟩⟩ ⟨⟨5⟩, ⟨10⟩⟩ =
      some (TextRange.empty ⟨⟨0⟩, ⟨5⟩⟩ ⟨5⟩) :=
  (intersection_spec ⟨⟨0⟩, ⟨5⟩⟩ ⟨⟨5⟩, ⟨10⟩⟩ (by decide) (by decide)).2.2.1

/-- C4: the factory `make s e` panics (modelled: returns `none`) for every
`s > e`, and for every `s ≤ e` it succeeds with a range that round-trips
through the accessors. -/
theorem make_spec (s e : TextSize) :
    (e.raw < s.raw → TextRange.make s e = none) ∧
    (s.raw ≤ e.raw →
      ∃ r, TextRange.make s e = some r ∧ r.start = s ∧ r.«end» = e) := by
  constructor
  · intro h
    simp [TextRange.make, Nat.not_le.mpr h]
  · intro h
    exact ⟨⟨s, e⟩, by simp [TextRange.make, h], rfl, rfl⟩

/-- Witness for C4 at concrete inputs. -/
theorem make_spec_witness :
    TextRange.make ⟨5⟩ ⟨3⟩ = none ∧
    (∃ r, TextRange.make ⟨3⟩ ⟨5⟩ = some r ∧ r.start = ⟨3⟩ ∧ r.«end» = ⟨5⟩) :=
  ⟨(make_spec ⟨5⟩ ⟨3⟩).1 (by decide), (make_spec ⟨3⟩ ⟨5⟩).2 (by decide)⟩

/-- C5: for valid inputs, `covering` always succeeds with
`start = min` of starts and `end = max` of ends, and it is commutative. -/
theorem covering_spec (a b : TextRange)
    (ha : a.start.raw ≤ a.«end».raw) (hb : b.start.raw ≤ b.«end».raw) :
    TextRange.covering a b =
      some ⟨⟨min a.start.raw b.start.raw⟩, ⟨max a.«end».raw b.«end».raw⟩⟩ ∧
    TextRange.covering a b = TextRange.covering b a := by
  have h : min a.start.raw b.start.raw ≤ max a.«end».raw b.«end».raw :=
    Nat.le_trans (Nat.min_le_left _ _) (Nat.le_trans ha (Nat.le_max_left _ _))
  constructor
  · simp [TextRange.covering, TextRange.make, h]
  · unfold TextRange.covering
    rw [Nat.min_comm, Nat.max_comm]

/-- Witness for C5 at concrete inputs: `covering (make 0 3) (make 5 10)`
equals `make 0 10` and commutes. -/
theorem covering_spec_witness :
    TextRange.covering ⟨⟨0⟩, ⟨3⟩⟩ ⟨⟨5⟩, ⟨10⟩⟩ = some ⟨⟨min 0 5⟩, ⟨max 3 10⟩⟩ ∧
    TextRange.covering ⟨⟨0⟩, ⟨3⟩⟩ ⟨⟨5⟩, ⟨10⟩⟩ =
      TextRange.covering ⟨⟨5⟩, ⟨10⟩⟩ ⟨⟨0⟩, ⟨3⟩⟩ :=
  covering_spec ⟨⟨0⟩, ⟨3⟩⟩ ⟨⟨5⟩, ⟨10⟩⟩ (by decide) (by decide)

/-- C6: indexing a buffer with a range yields the sub-slice `[start, end)`;
when `end = INF` the slice runs from `start` to the end of the buffer,
whatever its length.  Concretely, on `"hello world"`, `make 0 5` slices to
`"hello"` and the range `6..INF` slices to `"world"`. -/
theorem index_spec :
    (∀ (s : List Char) (r : TextRange), r.«end» = TextSize.INF →
      r.start.raw ≤ s.length → indexStr s r = some (s.drop r.start.raw)) ∧
    (∀ (s : List Char) (r : TextRange), r.«end» ≠ TextSize.INF →
      r.start.raw ≤ r.«end».raw → r.«end».raw ≤ s.length →
      indexStr s r = some ((s.take r.«end».raw).drop r.start.raw)) ∧
    indexStr "hello world".data ⟨⟨0⟩, ⟨5⟩⟩ = some "hello".data ∧
    indexStr "hello world".data ⟨⟨6⟩, TextSize.INF⟩ = some "world".data := by
  refine ⟨?_, ?_, by decide, by decide⟩
  · intro s r hINF hlen
    simp [indexStr, hINF, hlen]
  · intro s r hne hse hlen
    simp [indexStr, hne, hse, hlen]

/-- Witness for C6 at concrete inputs. -/
theorem index_spec_witness :
    indexStr "hello world".data ⟨⟨6⟩, TextSize.INF⟩ =
      some ("hello world".data.drop (⟨⟨6⟩, TextSize.INF⟩ : TextRange).start.raw) :=
  index_spec.1 "hello world".data ⟨⟨6⟩, TextSize.INF⟩ rfl (by decide)

/-- C7: the empty-range constructor ignores its receiver and returns the
range with `start = end = offset`, for every offset including the sentinel;
the result is empty and has length zero. -/
theorem empty_spec (r : TextRange) (o : TextSize) :
    TextRange.empty r o = ⟨o, o⟩ ∧
    (TextRange.empty r o).is_empty = true ∧
    (TextRange.empty r o).len = ⟨0⟩ := by
  refine ⟨rfl, ?_, ?_⟩
  · simp [TextRange.empty, TextRange.is_empty]
  · simp [TextRange.len, TextRange.empty, TextRange.is_empty]

/-- C8: for a valid range, `contains` holds exactly on `start ≤ p < end`
(so the end point itself is excluded and an empty range contains nothing),
and `contains_inclusive` holds exactly on `start ≤ p ≤ end`. -/
theorem contains_spec (r : TextRange) (p : TextSize)
    (h : r.start.raw ≤ r.«end».raw) :
    (r.contains p = true ↔ r.start.raw ≤ p.raw ∧ p.raw < r.«end».raw) ∧
    (r.contains_inclusive p = true ↔
      r.start.raw ≤ p.raw ∧ p.raw ≤ r.«end».raw) ∧
    r.contains r.«end» = false ∧
    (r.is_empty = true → r.contains p = false) := by
  refine ⟨?_, ?_, ?_, ?_⟩
  · simp [TextRange.contains]
  · simp [TextRange.contains_inclusive]
  · simp [TextRange.contains]
  · intro he
    simp [TextRange.is_empty] at he
    simp [TextRange.contains, he]

/-- Witness for C8 at concrete inputs. -/
theorem contains_spec_witness :
    ((⟨⟨3⟩, ⟨7⟩⟩ : TextRange).contains ⟨6⟩ = true ↔
      (⟨⟨3⟩, ⟨7⟩⟩ : TextRange).start.raw ≤ (⟨6⟩ : TextSize).raw ∧
      (⟨6⟩ : TextSize).raw < (⟨⟨3⟩, ⟨7⟩⟩ : TextRange).«end».raw) ∧
    ((⟨⟨3⟩, ⟨7⟩⟩ : TextRange).contains_inclusive ⟨6⟩ = true ↔
      (⟨⟨3⟩, ⟨7⟩⟩ : TextRange).start.raw ≤ (⟨6⟩ : TextSize).raw ∧
      (⟨6⟩ : TextSize).raw ≤ (⟨⟨3⟩, ⟨7⟩⟩ : TextRange).«end».raw) ∧
    (⟨⟨3⟩, ⟨7⟩⟩ : TextRange).contains (⟨⟨3⟩, ⟨7⟩⟩ : TextRange).«end» = false ∧
    ((⟨⟨3⟩, ⟨7⟩⟩ : TextRange).is_empty = true →
      (⟨⟨3⟩, ⟨7⟩⟩ : TextRange).contains ⟨6⟩ = false) :=
  contains_spec ⟨⟨3⟩, ⟨7⟩⟩ ⟨6⟩ (by decide)

/-- C9: the bounds view has an inclusive start bound at `start`, an end bound
that is unbounded exactly when `end = INF` and exclusive at `end` otherwise,
and converting a valid range to its bounds pair and back reconstructs it. -/
theorem bounds_roundtrip (r : TextRange) (h : r.start.raw ≤ r.«end».raw) :
    r.start_bound = Bound.Included r.start ∧
    (r.«end» = TextSize.INF → r.end_bound = Bound.Unbounded) ∧
    (r.«end» ≠ TextSize.INF → r.end_bound = Bound.Excluded r.«end») ∧
    fromBounds r.start_bound r.end_bound = some r := by
  refine ⟨rfl, ?_, ?_, ?_⟩
  · intro hINF
    simp [TextRange.end_bound, hINF]
  · intro hne
    simp [TextRange.end_bound, hne]
  · by_cases hINF : r.«end» = TextSize.INF
    · have hb : r.end_bound = Bound.Unbounded := by
        simp [TextRange.end_bound, hINF]
      rw [hb]
      show TextRange.make r.start TextSize.INF = some r
      rw [← hINF]
      exact (make_eq_some_iff _ _ _).2 ⟨h, rfl⟩
    · have hb : r.end_bound = Bound.Excluded r.«end» := by
        simp [TextRange.end_bound, hINF]
      rw [hb]
      show TextRange.make r.start r.«end» = some r
      exact (make_eq_some_iff _ _ _).2 ⟨h, rfl⟩

/-- Witness for C9 at concrete inputs (one finite-end, one sentinel-end). -/
theorem bounds_roundtrip_witness :
    fromBounds (⟨⟨6⟩, TextSize.INF⟩ : TextRange).start_bound
        (⟨⟨6⟩, TextSize.INF⟩ : TextRange).end_bound =
      some ⟨⟨6⟩, TextSize.INF⟩ :=
  (bounds_roundtrip ⟨⟨6⟩, TextSize.INF⟩ (by decide)).2.2.2

/-- C10: conversion to a native numeric range is field by field
(`start().into()..end().into()`); a sentinel `end` becomes the literal
maximum numeric value, unlike the bounds view, which reports it unbounded. -/
theorem toRange_spec (r : TextRange) :
    TextRange.toRange r = (r.start.raw, r.«end».raw) ∧
    (r.«end» = TextSize.INF →
      (TextRange.toRange r).2 = u32max ∧ r.end_bound = Bound.Unbounded) := by
  refine ⟨rfl, ?_⟩
  intro h
  constructor
  · simp [TextRange.toRange, h, TextSize.INF]
  · simp [TextRange.end_bound, h]

/-- Witness for C10 at a concrete sentinel-ended range. -/
theorem toRange_spec_witness :
    (TextRange.toRange ⟨⟨6⟩, TextSize.INF⟩).2 = u32max ∧
    (⟨⟨6⟩, TextSize.INF⟩ : TextRange).end_bound = Bound.Unbounded :=
  (toRange_spec ⟨⟨6⟩, TextSize.INF⟩).2 rfl

end TextUnit
